import Mathlib

/-!
Verification of the llm-pdf-qa ingestion/sync pipeline core.

Shallow embedding of the Python source:
  app/pipeline/ingest.py   (compute_file_hash, ingest_document, _find_page_for_chunk)
  app/pipeline/scanner.py  (scan_files, scan_and_ingest, SUPPORTED_EXTENSIONS)
  app/pipeline/sync.py     (scan_directory, run_sync, _delete_document_data)
  app/processing/chunker.py (chunk_text)
  app/db/postgres.py       (get_session transaction semantics: commit on normal
                            exit, rollback-and-reraise on exception)
  app/db/models.py         (Document, DocChunk, SystemJob rows)

External collaborators (sha256 digest, format parsers, the langchain text
splitter, the tokenizer length function, the sentence-transformers embedder,
the Qdrant vector store) are modelled as function parameters collected in an
`Env`, since the core only consumes their outputs.  Machine floats in the
embedding vectors are abstracted to `List Int`: no claim inspects the numeric
values.  The filesystem is a finite model: a set of existing directories and a
list of regular files with byte contents; `os.walk` of a missing directory
silently yields nothing, `Path.iterdir` of a missing directory raises, and
`glob` only returns existing paths - all mirrored below.
-/

namespace LlmPdfQa

/-! ### String helpers mirroring the Python/pathlib primitives used -/

/-- `listStarts hay needle`: does `hay` start with `needle` (char lists). -/
def listStarts : List Char → List Char → Bool
  | _, [] => true
  | [], _ :: _ => false
  | a :: as, b :: bs => a == b && listStarts as bs

/-- `subSearch needle hay`: does `needle` occur as a contiguous run of `hay`?
Mirrors the Python `needle in hay` substring test. -/
def subSearch (needle : List Char) : List Char → Bool
  | [] => listStarts [] needle
  | c :: t => listStarts (c :: t) needle || subSearch needle t

/-- Python `needle in hay` on strings. -/
def strHasSub (hay needle : String) : Bool :=
  subSearch needle.toList hay.toList

/-- Lexicographic code-point order on strings (Python string `<=`). -/
def listLe : List Char → List Char → Bool
  | [], _ => true
  | _ :: _, [] => false
  | a :: as, b :: bs =>
    if a.val < b.val then true else if a = b then listLe as bs else false

/-- Python `a <= b` on strings. -/
def strLe (a b : String) : Bool := listLe a.toList b.toList

/-- `s.map Char.toLower` (Python `str.lower()` over the ASCII range used). -/
def toLowerStr (s : String) : String := ⟨s.toList.map Char.toLower⟩

/-- Python `str.strip()` with the default whitespace set. -/
def pyStrip (s : String) : String :=
  ⟨((s.toList.dropWhile Char.isWhitespace).reverse.dropWhile
      Char.isWhitespace).reverse⟩

/-- Last component of a path, mirroring `pathlib.Path(p).name`. -/
def baseName (p : String) : String :=
  ⟨(p.toList.reverse.takeWhile (fun c => c != '/')).reverse⟩

/-- Index of the last occurrence of `c` in `l`, if any. -/
def lastIdxOf (c : Char) (l : List Char) : Option Nat :=
  ((l.enum.filter (fun q => q.2 == c)).map (fun q => q.1)).getLast?

/-- `pathlib.PurePath.suffix` of a file NAME: the substring from the last dot,
provided that dot is neither the first nor the last character, else empty. -/
def pathSuffix (name : String) : String :=
  match lastIdxOf '.' name.toList with
  | none => ""
  | some i => if 0 < i ∧ i < name.length - 1 then ⟨name.toList.drop i⟩ else ""

/-- Python `s.lstrip(".")`: drop every leading dot. -/
def dropDots (s : String) : String :=
  ⟨s.toList.dropWhile (fun c => c == '.')⟩

/-- `os.path.join root pat` for the two cases the scanner can hit. -/
def pathJoin (root pat : String) : String :=
  if listStarts pat.toList ['/'] then pat
  else if listStarts root.toList.reverse ['/'] then root ++ pat
  else root ++ "/" ++ pat

/-- Is `p` a path strictly below directory `root`? -/
def isUnder (root p : String) : Bool :=
  (root ++ "/").toList |> listStarts p.toList

/-- Is `p` a direct child of directory `root` (no further slash)? -/
def isDirectChild (root p : String) : Bool :=
  isUnder root p && !((p.toList.drop (root.length + 1)).contains '/')

/-! ### Filesystem model -/

/-- One regular file on disk: absolute path and byte content. -/
structure FSFile where
  path : String
  bytes : List Nat
deriving Repr, DecidableEq

/-- A finite filesystem: existing directories, regular files, and the glob
matcher (pattern, recursive flag, candidate path).  `glob.glob` only ever
returns paths of existing entries; the scanner additionally filters
`is_file`, so the model draws glob candidates from `files`. -/
structure FS where
  dirs : List String
  files : List FSFile
  globPred : String → Bool → String → Bool

/-- Content of the file at `p`, if it exists (used for `open(p,"rb")` and
`Path(p).stat().st_size`). -/
def FS.content (fs : FS) (p : String) : Option (List Nat) :=
  (fs.files.find? (fun f => f.path = p)).map (fun f => f.bytes)

/-! ### Content hasher (`app/pipeline/ingest.py: compute_file_hash`) -/

/-- `compute_file_hash`: stream the file bytes into the digest; an unreadable
path raises (`IOError`).  `digest` stands for `hashlib.sha256(...).hexdigest()`. -/
def compute_file_hash (digest : List Nat → String) (fs : FS) (p : String) :
    Except String String :=
  match fs.content p with
  | none => .error ("IOError: cannot read " ++ p)
  | some bytes => .ok (digest bytes)

/-! ### Catalog rows (`app/db/models.py`) -/

/-- `Document` row.  Timestamps, language and version are carried by the ORM
defaults and never read by the pipeline core, so they are omitted.  The
`hash` column carries a uniqueness constraint (models.py line 68). -/
structure Doc where
  doc_id : Nat
  folder_id : Option Nat
  file_name : String
  path : String
  type : String
  hash : String
  size : Nat
  dept_id : Nat
  role_id : Nat
  total_page_cnt : Nat
  status : String
  error_msg : Option String
deriving Repr, DecidableEq

/-- `DocChunk` row (chunk_id autoincrement and timestamps omitted: never read). -/
structure DocChunk where
  doc_id : Nat
  chunk_idx : Nat
  content : String
  token_cnt : Nat
  page_number : Option Nat
  embedding : List Int
  embed_model : String
deriving Repr, DecidableEq

/-- `SystemJob` row as written by `run_sync` (timestamps omitted). -/
structure Job where
  job_name : String
  job_type : String
  status : String
  last_error : Option String
deriving Repr, DecidableEq

/-- The committed PostgreSQL state: document rows, chunk rows, job rows, and
the next autoincrement id for `document.doc_id`. -/
structure DB where
  docs : List Doc
  chunks : List DocChunk
  jobs : List Job
  nextId : Nat
deriving Repr, DecidableEq

/-! ### Parser and chunker collaborator shapes -/

/-- One parsed page (`parsers/base.py` page shape used by ingest). -/
structure ParsedPage where
  page_num : Nat
  text : String
deriving Repr, DecidableEq

/-- `parser.parse(path)` output consumed by ingest. -/
structure ParseResult where
  pages : List ParsedPage
  raw_text : String
  total_pages : Nat
deriving Repr, DecidableEq

/-- One element of `chunk_text`'s returned list of dicts. -/
structure ChunkData where
  text : String
  token_cnt : Nat
  chunk_idx : Nat
deriving Repr, DecidableEq

/-- `app/processing/chunker.py: chunk_text`.  Empty or whitespace-only text
short-circuits to the empty list; otherwise the (external) splitter output is
enumerated with its token counts.  `split` stands for
`RecursiveCharacterTextSplitter(...).split_text`, `tokenLength` for the
tokenizer-based length function. -/
def chunk_text (split : String → List String) (tokenLength : String → Nat)
    (text : String) : List ChunkData :=
  if text = "" || pyStrip text = "" then []
  else (split text).enum.map (fun q => ⟨q.2, tokenLength q.2, q.1⟩)

/-- External collaborators of one pipeline run, as functions.  `digest` is
sha256-hexdigest; `parse path` folds `get_parser` + `parser.parse` (either
raising is one error branch in the source try block); `embed` is
`embed_chunks` and may raise; `embed_model` is `settings.embed_model`. -/
structure Env where
  digest : List Nat → String
  parse : String → Except String ParseResult
  split : String → List String
  tokenLength : String → Nat
  embed : List String → Except String (List (List Int))
  embed_model : String

/-! ### Document pipeline (`app/pipeline/ingest.py: ingest_document`) -/

/-- `_find_page_for_chunk`: first parsed page whose text contains the chunk's
leading 100 characters, else `none`. -/
def find_page_for_chunk (result : ParseResult) (ctext : String) : Option Nat :=
  (result.pages.find? (fun page => strHasSub page.text (ctext.take 100))).map
    (fun page => page.page_num)

/-- `ingest_document`.  The whole body runs inside one `get_session()` scope
(`app/db/postgres.py`): normal exit commits, an exception rolls the entire
transaction back and re-raises.  Consequently every error branch returns the
catalog unchanged - including the `except` branch that assigns
`doc.status = "failed"` and `doc.error_msg = str(e)[:1000]` before `raise`,
because those flushed-but-uncommitted writes are discarded by the rollback.

`concurrent` models rows committed by other transactions between the dedup
query and `session.flush()`: the uniqueness constraint on `hash` makes the
flush raise `IntegrityError` exactly when such a row (or one of `db.docs`,
already excluded by the dedup check) carries the same fingerprint; that
exception is raised before the `try` block starts, so it propagates. -/
def ingest_document (env : Env) (fs : FS) (file_path : String) (db : DB)
    (folder_id : Option Nat := none) (dept_id : Nat := 1) (role_id : Nat := 3)
    (concurrent : List Doc := []) : Except String Nat × DB :=
  match fs.content file_path with
  | none => (.error ("IOError: cannot read " ++ file_path), db)
  | some bytes =>
    let file_hash := env.digest bytes
    let file_size := bytes.length
    let file_type := toLowerStr (dropDots (pathSuffix (baseName file_path)))
    match db.docs.find? (fun d => d.hash = file_hash) with
    | some existing => (.ok existing.doc_id, db)
    | none =>
      if (db.docs ++ concurrent).any (fun d => d.hash = file_hash) then
        (.error "IntegrityError: duplicate key value violates document hash uniqueness", db)
      else
        let doc_id := db.nextId
        let doc0 : Doc :=
          { doc_id := doc_id, folder_id := folder_id,
            file_name := baseName file_path, path := file_path,
            type := file_type, hash := file_hash, size := file_size,
            dept_id := dept_id, role_id := role_id, total_page_cnt := 0,
            status := "processing", error_msg := none }
        match env.parse file_path with
        | .error e => (.error e, db)
        | .ok result =>
          let chunks := chunk_text env.split env.tokenLength result.raw_text
          if chunks.isEmpty then
            (.ok doc_id,
             { db with
                 docs := db.docs ++
                   [{ doc0 with status := "indexed",
                                total_page_cnt := result.total_pages }],
                 nextId := db.nextId + 1 })
          else
            match env.embed (chunks.map (fun c => c.text)) with
            | .error e => (.error e, db)
            | .ok embeddings =>
              let chunk_records := (chunks.zip embeddings).map (fun q =>
                { doc_id := doc_id, chunk_idx := q.1.chunk_idx,
                  content := q.1.text, token_cnt := q.1.token_cnt,
                  page_number := find_page_for_chunk result q.1.text,
                  embedding := q.2, embed_model := env.embed_model : DocChunk })
              (.ok doc_id,
               { db with
                   docs := db.docs ++
                     [{ doc0 with status := "indexed",
                                  total_page_cnt := result.total_pages }],
                   chunks := db.chunks ++ chunk_records,
                   nextId := db.nextId + 1 })

/-! ### Directory scanner (`app/pipeline/scanner.py`) -/

/-- `SUPPORTED_EXTENSIONS` (scanner.py lines 11-14). -/
def SUPPORTED_EXTENSIONS : List String :=
  [".pdf", ".docx", ".xlsx", ".xls", ".pptx",
   ".png", ".jpg", ".jpeg", ".tif", ".tiff"]

/-- `FileInfo` dataclass. -/
structure FileInfo where
  path : String
  name : String
  extension : String
  size : Nat
  hash : String
deriving Repr, DecidableEq

/-- `ScanResult` dataclass (`by_type` is an insertion-ordered dict). -/
structure ScanResult where
  directory : String
  total_files : Nat
  files : List FileInfo
  by_type : List (String × Nat)
deriving Repr, DecidableEq

/-- `by_type[ext_key] = by_type.get(ext_key, 0) + 1` on an insertion-ordered
dict. -/
def bumpType (m : List (String × Nat)) (k : String) : List (String × Nat) :=
  if m.any (fun q => q.1 = k) then
    m.map (fun q => if q.1 = k then (q.1, q.2 + 1) else q)
  else m ++ [(k, 1)]

/-- Stable-insert `x` after every earlier entry whose name is ≤ its name
(Python `list.sort` is stable ascending by `f.name`). -/
def insertByName (x : FileInfo) : List FileInfo → List FileInfo
  | [] => [x]
  | y :: ys => if strLe y.name x.name then y :: insertByName x ys else x :: y :: ys

/-- Stable sort by file name, mirroring `files.sort(key=lambda f: f.name)`. -/
def sortByName (l : List FileInfo) : List FileInfo :=
  l.foldl (fun acc x => insertByName x acc) []

/-- Candidate enumeration of `scan_files`:
* glob pattern: `glob(os.path.join(directory, pattern), recursive=...)`
  filtered by `is_file()` - glob only names existing entries, so the model
  draws from `fs.files`;
* recursive: `os.walk(directory)` - silently empty when the directory is
  missing (os.walk reports errors to an `onerror` callback that is left
  `None`);
* non-recursive: `Path(directory).iterdir()` - raises `FileNotFoundError` /
  `NotADirectoryError` when `directory` is not an existing directory. -/
def scanCandidates (fs : FS) (directory : String) (pattern : Option String)
    (recursive : Bool) : Except String (List FSFile) :=
  match pattern with
  | some pat =>
      let full_pattern := pathJoin directory pat
      .ok (fs.files.filter (fun f => fs.globPred full_pattern recursive f.path))
  | none =>
      if recursive then
        .ok (fs.files.filter (fun f => isUnder directory f.path))
      else
        if fs.dirs.contains directory then
          .ok (fs.files.filter (fun f => isDirectChild directory f.path))
        else .error ("FileNotFoundError: " ++ directory)

/-- Per-candidate body of the `for fpath in candidates` loop. -/
def scanStep (digest : List Nat → String) (target_exts : List String)
    (compute_hash : Bool) (acc : List FileInfo × List (String × Nat))
    (f : FSFile) : List FileInfo × List (String × Nat) :=
  let name := baseName f.path
  let ext := toLowerStr (pathSuffix name)
  if target_exts.contains ext then
    let file_hash := if compute_hash then digest f.bytes else ""
    (acc.1 ++ [{ path := f.path, name := name, extension := ext,
                 size := f.bytes.length, hash := file_hash }],
     bumpType acc.2 (dropDots ext))
  else acc

/-- `scan_files`.  Note the source signature defaults:
`recursive: bool = True`, `compute_hash: bool = True`. -/
def scan_files (digest : List Nat → String) (fs : FS) (directory : String)
    (extensions : Option (List String) := none) (pattern : Option String := none)
    (recursive : Bool := true) (compute_hash : Bool := true) :
    Except String ScanResult :=
  let target_exts := extensions.getD SUPPORTED_EXTENSIONS
  match scanCandidates fs directory pattern recursive with
  | .error e => .error e
  | .ok candidates =>
    let fb := candidates.foldl (scanStep digest target_exts compute_hash) ([], [])
    let files := sortByName fb.1
    .ok { directory := directory, total_files := files.length,
          files := files, by_type := fb.2 }

/-! ### Batch runner (`app/pipeline/scanner.py: scan_and_ingest`) -/

/-- One entry of the batch `details` list. -/
structure BatchDetail where
  file : String
  status : String
  doc_id : Option Nat
  error : Option String
deriving Repr, DecidableEq

/-- Batch summary returned by `scan_and_ingest`. -/
structure BatchResult where
  total : Nat
  success : Nat
  failed : Nat
  skipped : Nat
  details : List BatchDetail
deriving Repr, DecidableEq

/-- Per-file body of the `for f in scan.files` loop: a normal return counts
`success`; a raised exception counts `skipped` when its text contains
"already indexed", else `failed` with the message truncated to 200. -/
def batchStep (env : Env) (fs : FS) (acc : BatchResult × DB) (f : FileInfo) :
    BatchResult × DB :=
  match ingest_document env fs f.path acc.2 with
  | (.ok doc_id, d) =>
      ({ acc.1 with
           success := acc.1.success + 1
           details := acc.1.details ++
             [{ file := f.name, status := "ok", doc_id := some doc_id,
                error := none }] }, d)
  | (.error e, d) =>
      if strHasSub e.toLower "already indexed" then
        ({ acc.1 with
             skipped := acc.1.skipped + 1
             details := acc.1.details ++
               [{ file := f.name, status := "skipped", doc_id := none,
                  error := none }] }, d)
      else
        ({ acc.1 with
             failed := acc.1.failed + 1
             details := acc.1.details ++
               [{ file := f.name, status := "error", doc_id := none,
                  error := some (e.take 200) }] }, d)

/-- `scan_and_ingest`: scan once (with the scanner's hash default), then run
the pipeline on every matched file; a `scan_files` failure propagates. -/
def scan_and_ingest (env : Env) (fs : FS) (db : DB) (directory : String)
    (extensions : Option (List String) := none)
    (pattern : Option String := none) (recursive : Bool := true) :
    Except String (BatchResult × DB) :=
  match scan_files env.digest fs directory extensions pattern recursive with
  | .error e => .error e
  | .ok scan =>
    .ok (scan.files.foldl (batchStep env fs)
      ({ total := scan.total_files, success := 0, failed := 0, skipped := 0,
         details := [] }, db))

/-! ### Sync engine (`app/pipeline/sync.py`) -/

/-- `scan_directory`: recursive scan without hashing, flattened to
`(absolute_path, size)` pairs (the Python dict keeps the scanner's sorted
insertion order).  The recursive no-pattern branch of `scan_files` never
raises, so the error case is dead; it is mapped to the empty inventory. -/
def scan_directory (digest : List Nat → String) (fs : FS) (watch_dir : String) :
    List (String × Nat) :=
  match scan_files digest fs watch_dir none none true false with
  | .ok r => r.files.map (fun f => (f.path, f.size))
  | .error _ => []

/-- Statuses the sync query treats as active (sync.py line 54). -/
def activeStatuses : List String := ["indexed", "pending", "processing", "failed"]

/-- `{doc.path: doc for doc in db_docs}` over the active documents: dict
semantics keep the first occurrence position of each path and the last
assigned value. -/
def dbMapList (docs : List Doc) : List Doc :=
  let active := docs.filter (fun d => activeStatuses.contains d.status)
  ((active.map (fun d => d.path)).eraseDups).filterMap
    (fun p => active.reverse.find? (fun d => d.path = p))

/-- Sync summary counters. -/
structure SyncStats where
  new : Nat
  modified : Nat
  deleted : Nat
  unchanged : Nat
  errors : Nat
deriving Repr, DecidableEq

/-- Rendering of the stats for the job row's `last_error` text. -/
def statsLine (s : SyncStats) : String :=
  "Stats: new=" ++ toString s.new ++ " modified=" ++ toString s.modified ++
  " deleted=" ++ toString s.deleted ++ " unchanged=" ++ toString s.unchanged ++
  " errors=" ++ toString s.errors

/-- State threaded through one sync run: the counters, the committed catalog
(`ingest_document` opens and commits its own session per call), the doc_ids
whose chunk and document rows the outer session has deleted but not yet
committed (they apply when `get_session` commits at the end of `run_sync`),
and the external vector store content as the set of doc_ids that own points. -/
structure SyncAcc where
  stats : SyncStats
  committed : DB
  pending : List Nat
  vstore : List Nat
deriving Repr, DecidableEq

/-- `_delete_document_data` effect on the vector store: a Qdrant failure is
caught and only logged, so when `qdrOk doc_id` is false the store keeps the
document's points; the catalog-side chunk/document deletes always proceed in
the outer session (recorded in `pending`). -/
def delete_document_data (qdrOk : Nat → Bool) (vstore : List Nat)
    (doc_id : Nat) : List Nat :=
  if qdrOk doc_id then vstore.filter (fun i => i ≠ doc_id) else vstore

/-- Body of the `for abs_path, file_size in disk_files.items()` loop. -/
def syncStep (env : Env) (fs : FS) (qdrOk : Nat → Bool) (db_map : List Doc)
    (acc : SyncAcc) (entry : String × Nat) : SyncAcc :=
  match db_map.find? (fun d => d.path = entry.1) with
  | none =>
      match ingest_document env fs entry.1 acc.committed with
      | (.ok _, d) =>
          { acc with
              stats := { acc.stats with new := acc.stats.new + 1 }
              committed := d }
      | (.error _, d) =>
          { acc with
              stats := { acc.stats with errors := acc.stats.errors + 1 }
              committed := d }
  | some old_doc =>
    if old_doc.size ≠ entry.2 then
      let vs := delete_document_data qdrOk acc.vstore old_doc.doc_id
      let pend := acc.pending ++ [old_doc.doc_id]
      match ingest_document env fs entry.1 acc.committed with
      | (.ok _, d) =>
          { stats := { acc.stats with modified := acc.stats.modified + 1 }
            committed := d
            pending := pend
            vstore := vs }
      | (.error _, d) =>
          { stats := { acc.stats with errors := acc.stats.errors + 1 }
            committed := d
            pending := pend
            vstore := vs }
    else
      match fs.content entry.1 with
      | none =>
          { acc with
              stats := { acc.stats with errors := acc.stats.errors + 1 } }
      | some bytes =>
        if old_doc.hash ≠ env.digest bytes then
          let vs := delete_document_data qdrOk acc.vstore old_doc.doc_id
          let pend := acc.pending ++ [old_doc.doc_id]
          match ingest_document env fs entry.1 acc.committed with
          | (.ok _, d) =>
              { stats := { acc.stats with modified := acc.stats.modified + 1 }
                committed := d
                pending := pend
                vstore := vs }
          | (.error _, d) =>
              { stats := { acc.stats with errors := acc.stats.errors + 1 }
                committed := d
                pending := pend
                vstore := vs }
        else
          { acc with
              stats := { acc.stats with unchanged := acc.stats.unchanged + 1 } }

/-- Body of the deleted-files loop (`for abs_path, doc in db_map.items()`).
Nothing inside its `try` can raise in the model (the Qdrant failure is
swallowed inside `_delete_document_data`), so the `errors` branch is dead. -/
def syncDelStep (qdrOk : Nat → Bool) (disk_files : List (String × Nat))
    (acc : SyncAcc) (doc : Doc) : SyncAcc :=
  if disk_files.any (fun e => e.1 = doc.path) then acc
  else
    { acc with
        stats := { acc.stats with deleted := acc.stats.deleted + 1 }
        pending := acc.pending ++ [doc.doc_id]
        vstore := delete_document_data qdrOk acc.vstore doc.doc_id }

/-- Commit of the outer `run_sync` session: the pending chunk/document
deletes apply to the committed state and the job row is inserted. -/
def syncCommit (acc : SyncAcc) (job : Job) : DB :=
  { docs := acc.committed.docs.filter (fun d => !(acc.pending.contains d.doc_id))
    chunks := acc.committed.chunks.filter (fun c => !(acc.pending.contains c.doc_id))
    jobs := acc.committed.jobs ++ [job]
    nextId := acc.committed.nextId }

/-- `run_sync`.  Returns the stats (or the early "directory not found" error
dict), the committed catalog afterwards, and the vector-store state. -/
def run_sync (env : Env) (fs : FS) (qdrOk : Nat → Bool) (watch_dir : String)
    (db : DB) (vstore : List Nat) :
    Except String SyncStats × DB × List Nat :=
  if !(fs.dirs.contains watch_dir) then
    (.error ("Directory not found: " ++ watch_dir), db, vstore)
  else
    let disk_files := scan_directory env.digest fs watch_dir
    let db_map := dbMapList db.docs
    let acc0 : SyncAcc := ⟨⟨0, 0, 0, 0, 0⟩, db, [], vstore⟩
    let acc1 := disk_files.foldl (syncStep env fs qdrOk db_map) acc0
    let acc2 := db_map.foldl (syncDelStep qdrOk disk_files) acc1
    let job : Job :=
      { job_name := "daily_sync", job_type := "nas_sync",
        status := if acc2.stats.errors = 0 then "completed"
                  else "completed_with_errors",
        last_error := if acc2.stats.errors = 0 then none
                      else some (statsLine acc2.stats) }
    (.ok acc2.stats, syncCommit acc2 job, acc2.vstore)

/-! ### Branch equations for `ingest_document` -/

/-- Unreadable file: the `IOError` from hashing propagates, nothing written. -/
theorem ingest_eq_ioerr (env : Env) (fs : FS) (p : String) (db : DB)
    (fid : Option Nat) (did rid : Nat) (conc : List Doc)
    (hc : fs.content p = none) :
    ingest_document env fs p db fid did rid conc =
      (.error ("IOError: cannot read " ++ p), db) := by
  unfold ingest_document
  rw [hc]

/-- Dedup hit: the existing id is returned at once, the catalog untouched. -/
theorem ingest_eq_dedup (env : Env) (fs : FS) (p : String) (db : DB)
    (fid : Option Nat) (did rid : Nat) (conc : List Doc) (bytes : List Nat)
    (d : Doc) (hc : fs.content p = some bytes)
    (hf : db.docs.find? (fun x => x.hash = env.digest bytes) = some d) :
    ingest_document env fs p db fid did rid conc = (.ok d.doc_id, db) := by
  unfold ingest_document
  rw [hc]
  simp only [hf]

/-- Uniqueness violation at `session.flush()` (a row with the same hash was
committed concurrently): the flush raises before the `try` block, so the
exception propagates and the rollback leaves the catalog unchanged. -/
theorem ingest_eq_integrity (env : Env) (fs : FS) (p : String) (db : DB)
    (fid : Option Nat) (did rid : Nat) (conc : List Doc) (bytes : List Nat)
    (hc : fs.content p = some bytes)
    (hn : db.docs.find? (fun x => x.hash = env.digest bytes) = none)
    (ha : (db.docs ++ conc).any (fun x => x.hash = env.digest bytes) = true) :
    ingest_document env fs p db fid did rid conc =
      (.error "IntegrityError: duplicate key value violates document hash uniqueness",
       db) := by
  unfold ingest_document
  rw [hc]
  simp only [hn, ha]
  simp

/-- Parse failure: the exception is re-raised out of `get_session`, whose
rollback discards the flushed `processing` row and the in-memory
`status = "failed"` / truncated `error_msg` assignments alike. -/
theorem ingest_eq_parsefail (env : Env) (fs : FS) (p : String) (db : DB)
    (fid : Option Nat) (did rid : Nat) (conc : List Doc) (bytes : List Nat)
    (e : String) (hc : fs.content p = some bytes)
    (hn : db.docs.find? (fun x => x.hash = env.digest bytes) = none)
    (ha : (db.docs ++ conc).any (fun x => x.hash = env.digest bytes) = false)
    (hp : env.parse p = .error e) :
    ingest_document env fs p db fid did rid conc = (.error e, db) := by
  unfold ingest_document
  rw [hc]
  simp only [hn, ha, hp]
  simp

/-- Zero chunks: the document commits as `indexed` with its page count and no
chunk rows. -/
theorem ingest_eq_nochunks (env : Env) (fs : FS) (p : String) (db : DB)
    (fid : Option Nat) (did rid : Nat) (conc : List Doc) (bytes : List Nat)
    (res : ParseResult) (hc : fs.content p = some bytes)
    (hn : db.docs.find? (fun x => x.hash = env.digest bytes) = none)
    (ha : (db.docs ++ conc).any (fun x => x.hash = env.digest bytes) = false)
    (hp : env.parse p = .ok res)
    (hz : chunk_text env.split env.tokenLength res.raw_text = []) :
    ingest_document env fs p db fid did rid conc =
      (.ok db.nextId,
       { db with
           docs := db.docs ++
             [{ doc_id := db.nextId, folder_id := fid,
                file_name := baseName p, path := p,
                type := toLowerStr (dropDots (pathSuffix (baseName p))),
                hash := env.digest bytes, size := bytes.length,
                dept_id := did, role_id := rid,
                total_page_cnt := res.total_pages, status := "indexed",
                error_msg := none }]
           nextId := db.nextId + 1 }) := by
  unfold ingest_document
  rw [hc]
  simp only [hn, ha, hp, hz]
  simp

/-- Embedding failure: as with a parse failure, the rollback leaves the
catalog exactly as before the call. -/
theorem ingest_eq_embedfail (env : Env) (fs : FS) (p : String) (db : DB)
    (fid : Option Nat) (did rid : Nat) (conc : List Doc) (bytes : List Nat)
    (res : ParseResult) (e : String) (hc : fs.content p = some bytes)
    (hn : db.docs.find? (fun x => x.hash = env.digest bytes) = none)
    (ha : (db.docs ++ conc).any (fun x => x.hash = env.digest bytes) = false)
    (hp : env.parse p = .ok res)
    (hz : (chunk_text env.split env.tokenLength res.raw_text).isEmpty = false)
    (he : env.embed ((chunk_text env.split env.tokenLength res.raw_text).map
            (fun c => c.text)) = .error e) :
    ingest_document env fs p db fid did rid conc = (.error e, db) := by
  unfold ingest_document
  rw [hc]
  simp only [hn, ha, hp, hz, he]
  simp

/-- Full success: document committed `indexed` together with its chunk batch. -/
theorem ingest_eq_success (env : Env) (fs : FS) (p : String) (db : DB)
    (fid : Option Nat) (did rid : Nat) (conc : List Doc) (bytes : List Nat)
    (res : ParseResult) (embeddings : List (List Int))
    (hc : fs.content p = some bytes)
    (hn : db.docs.find? (fun x => x.hash = env.digest bytes) = none)
    (ha : (db.docs ++ conc).any (fun x => x.hash = env.digest bytes) = false)
    (hp : env.parse p = .ok res)
    (hz : (chunk_text env.split env.tokenLength res.raw_text).isEmpty = false)
    (he : env.embed ((chunk_text env.split env.tokenLength res.raw_text).map
            (fun c => c.text)) = .ok embeddings) :
    ingest_document env fs p db fid did rid conc =
      (.ok db.nextId,
       { db with
           docs := db.docs ++
             [{ doc_id := db.nextId, folder_id := fid,
                file_name := baseName p, path := p,
                type := toLowerStr (dropDots (pathSuffix (baseName p))),
                hash := env.digest bytes, size := bytes.length,
                dept_id := did, role_id := rid,
                total_page_cnt := res.total_pages, status := "indexed",
                error_msg := none }]
           chunks := db.chunks ++
             ((chunk_text env.split env.tokenLength res.raw_text).zip
                embeddings).map (fun q =>
               { doc_id := db.nextId, chunk_idx := q.1.chunk_idx,
                 content := q.1.text, token_cnt := q.1.token_cnt,
                 page_number := find_page_for_chunk res q.1.text,
                 embedding := q.2, embed_model := env.embed_model })
           nextId := db.nextId + 1 }) := by
  unfold ingest_document
  rw [hc]
  simp only [hn, ha, hp, hz, he]
  simp

/-- Any failing `ingest_document` call leaves the committed catalog exactly
as it was: the re-raise exits `get_session`, which rolls the transaction
back, discarding the flushed document row and the failed-status writes. -/
theorem ingest_error_unchanged (env : Env) (fs : FS) (p : String) (db : DB)
    (fid : Option Nat) (did rid : Nat) (conc : List Doc) (e : String)
    (h : (ingest_document env fs p db fid did rid conc).1 = .error e) :
    (ingest_document env fs p db fid did rid conc).2 = db := by
  cases hc : fs.content p with
  | none => rw [ingest_eq_ioerr env fs p db fid did rid conc hc]
  | some bytes =>
    cases hf : db.docs.find? (fun x => x.hash = env.digest bytes) with
    | some d =>
      rw [ingest_eq_dedup env fs p db fid did rid conc bytes d hc hf] at h
      simp at h
    | none =>
      cases ha : (db.docs ++ conc).any (fun x => x.hash = env.digest bytes) with
      | true => rw [ingest_eq_integrity env fs p db fid did rid conc bytes hc hf ha]
      | false =>
        cases hp : env.parse p with
        | error e2 =>
          rw [ingest_eq_parsefail env fs p db fid did rid conc bytes e2 hc hf ha hp]
        | ok res =>
          cases hz : (chunk_text env.split env.tokenLength res.raw_text).isEmpty with
          | true =>
            rw [ingest_eq_nochunks env fs p db fid did rid conc bytes res hc hf ha
              hp (List.isEmpty_iff.mp hz)] at h
            simp at h
          | false =>
            cases he : env.embed ((chunk_text env.split env.tokenLength
                res.raw_text).map (fun c => c.text)) with
            | error e2 =>
              rw [ingest_eq_embedfail env fs p db fid did rid conc bytes res e2
                hc hf ha hp hz he]
            | ok vs =>
              rw [ingest_eq_success env fs p db fid did rid conc bytes res vs
                hc hf ha hp hz he] at h
              simp at h

/-- `find?` over a snoc whose old part has no match and whose new element
matches. -/
theorem find?_append_singleton {A : Type} (p : A → Bool) (l : List A) (x : A)
    (h1 : l.find? p = none) (h2 : p x = true) :
    (l ++ [x]).find? p = some x := by
  rw [List.find?_append, h1]
  simp [List.find?, h2]

/-- After a successful `ingest_document` call, the catalog holds a document
whose fingerprint is the file's digest, found first by the dedup query, and
its id is the returned id. -/
theorem ingest_ok_find (env : Env) (fs : FS) (p : String) (db : DB)
    (fid : Option Nat) (did rid : Nat) (conc : List Doc) (bytes : List Nat)
    (i : Nat) (db2 : DB) (hc : fs.content p = some bytes)
    (h : ingest_document env fs p db fid did rid conc = (.ok i, db2)) :
    ∃ d, db2.docs.find? (fun x => x.hash = env.digest bytes) = some d ∧
      d.doc_id = i := by
  cases hf : db.docs.find? (fun x => x.hash = env.digest bytes) with
  | some d =>
    rw [ingest_eq_dedup env fs p db fid did rid conc bytes d hc hf] at h
    simp only [Prod.mk.injEq, Except.ok.injEq] at h
    exact ⟨d, h.2 ▸ hf, h.1⟩
  | none =>
    cases ha : (db.docs ++ conc).any (fun x => x.hash = env.digest bytes) with
    | true =>
      rw [ingest_eq_integrity env fs p db fid did rid conc bytes hc hf ha] at h
      simp at h
    | false =>
      cases hp : env.parse p with
      | error e2 =>
        rw [ingest_eq_parsefail env fs p db fid did rid conc bytes e2 hc hf ha hp] at h
        simp at h
      | ok res =>
        cases hz : (chunk_text env.split env.tokenLength res.raw_text).isEmpty with
        | true =>
          rw [ingest_eq_nochunks env fs p db fid did rid conc bytes res hc hf ha
            hp (List.isEmpty_iff.mp hz)] at h
          simp only [Prod.mk.injEq, Except.ok.injEq] at h
          obtain ⟨hi, hdb⟩ := h
          subst hdb
          exact ⟨_, find?_append_singleton _ _ _ hf (by simp), hi⟩
        | false =>
          cases he : env.embed ((chunk_text env.split env.tokenLength
              res.raw_text).map (fun c => c.text)) with
          | error e2 =>
            rw [ingest_eq_embedfail env fs p db fid did rid conc bytes res e2
              hc hf ha hp hz he] at h
            simp at h
          | ok vs =>
            rw [ingest_eq_success env fs p db fid did rid conc bytes res vs
              hc hf ha hp hz he] at h
            simp only [Prod.mk.injEq, Except.ok.injEq] at h
            obtain ⟨hi, hdb⟩ := h
            subst hdb
            exact ⟨_, find?_append_singleton _ _ _ hf (by simp), hi⟩

/-- Empty or whitespace-only text produces no chunks. -/
theorem chunk_text_of_strip_empty (split : String → List String)
    (tokenLength : String → Nat) (t : String) (h : pyStrip t = "") :
    chunk_text split tokenLength t = [] := by
  unfold chunk_text
  simp [h]

/-! ### Concrete fixtures used by witnesses and counterexamples -/

/-- A concrete stand-in digest: injective on byte lists, like sha256 is
collision-free in practice. -/
def digestT (b : List Nat) : String := "H" ++ toString b

/-- Environment whose parser succeeds with one page of text. -/
def envT : Env :=
  { digest := digestT,
    parse := fun _ => .ok ⟨[⟨1, "hello world"⟩], "hello world", 1⟩,
    split := fun t => [t], tokenLength := fun t => t.length,
    embed := fun ts => .ok (ts.map (fun _ => [1, 0])), embed_model := "e5" }

/-- Environment whose parser raises on every file. -/
def envFail : Env :=
  { digest := digestT, parse := fun _ => .error "boom",
    split := fun t => [t], tokenLength := fun t => t.length,
    embed := fun ts => .ok (ts.map (fun _ => [1, 0])), embed_model := "e5" }

/-- Environment whose parser returns whitespace-only text (5 pages). -/
def envWs : Env :=
  { digest := digestT, parse := fun _ => .ok ⟨[], "  \n", 5⟩,
    split := fun t => [t], tokenLength := fun t => t.length,
    embed := fun ts => .ok (ts.map (fun _ => [1, 0])), embed_model := "e5" }

/-- One watched directory holding one pdf of bytes `[1, 2, 3]`. -/
def fsT : FS := ⟨["/w"], [⟨"/w/a.pdf", [1, 2, 3]⟩], fun _ _ _ => false⟩

/-- The empty catalog. -/
def dbEmpty : DB := ⟨[], [], [], 1⟩

/-- A document committed by a concurrent transaction, carrying the same
fingerprint as `/w/a.pdf`. -/
def docConc : Doc :=
  { doc_id := 7, folder_id := none, file_name := "a.pdf",
    path := "/other/a.pdf", type := "pdf", hash := digestT [1, 2, 3],
    size := 3, dept_id := 1, role_id := 3, total_page_cnt := 1,
    status := "indexed", error_msg := none }

/-- A catalog row in `failed` status whose fingerprint matches the unchanged
content of `/w/a.pdf`. -/
def docFailed : Doc :=
  { doc_id := 7, folder_id := none, file_name := "a.pdf",
    path := "/w/a.pdf", type := "pdf", hash := digestT [1, 2, 3],
    size := 3, dept_id := 1, role_id := 3, total_page_cnt := 0,
    status := "failed", error_msg := some "previous failure" }

/-- Catalog holding only the failed record. -/
def dbFailed : DB := ⟨[docFailed], [], [], 8⟩

/-! ### Claims C1-C4, C9: the document pipeline -/

/-- Claim C1: the claim asserts that on a pipeline exception the document
row stays in the catalog marked `failed` with a truncated error message.
The code does assign `doc.status = "failed"` and `doc.error_msg =
str(e)[:1000]`, but then re-raises inside the `get_session()` context
manager, whose rollback discards the flushed row together with those
assignments: the exception propagates and the committed catalog is EXACTLY
what it was before the call - no document row remains at all (and hence no
chunk rows either, which is the one part of the claim the code meets). -/
theorem claimC1_ingest_failure_rollback (env : Env) (fs : FS) (p : String)
    (db : DB) (fid : Option Nat) (did rid : Nat) (conc : List Doc) (e : String)
    (h : (ingest_document env fs p db fid did rid conc).1 = .error e) :
    (ingest_document env fs p db fid did rid conc).2 = db :=
  ingest_error_unchanged env fs p db fid did rid conc e h

/-- Witness for C1: a parser failure on a fresh catalog propagates as an
error and leaves the catalog empty - no `failed` row survives. -/
theorem claimC1_ingest_failure_rollback_witness :
    (ingest_document envFail fsT "/w/a.pdf" dbEmpty none 1 3 []).1 =
      .error "boom" ∧
    (ingest_document envFail fsT "/w/a.pdf" dbEmpty none 1 3 []).2 = dbEmpty :=
  ⟨rfl, claimC1_ingest_failure_rollback envFail fsT "/w/a.pdf" dbEmpty
    none 1 3 [] "boom" rfl⟩

/-- Claim C2: ingest is idempotent by content.  If a first call on a file
returns `ok i`, then a second call on any path with the same bytes - the
same unmodified file included - returns the same id `i` and creates no new
document or chunk rows (the catalog is returned untouched). -/
theorem claimC2_ingest_idempotent_by_content (env : Env) (fs : FS)
    (p p2 : String) (db db1 : DB) (bytes : List Nat) (i : Nat)
    (fid1 : Option Nat) (did1 rid1 : Nat) (c1 : List Doc)
    (fid2 : Option Nat) (did2 rid2 : Nat) (c2 : List Doc)
    (hb : fs.content p = some bytes) (hb2 : fs.content p2 = some bytes)
    (h1 : ingest_document env fs p db fid1 did1 rid1 c1 = (.ok i, db1)) :
    ingest_document env fs p2 db1 fid2 did2 rid2 c2 = (.ok i, db1) := by
  obtain ⟨d, hfind, hid⟩ :=
    ingest_ok_find env fs p db fid1 did1 rid1 c1 bytes i db1 hb h1
  rw [ingest_eq_dedup env fs p2 db1 fid2 did2 rid2 c2 bytes d hb2 hfind, hid]

/-- Witness for C2: ingesting `/w/a.pdf` twice yields id 1 both times and the
second call returns the catalog of the first call unchanged. -/
theorem claimC2_ingest_idempotent_by_content_witness :
    ingest_document envT fsT "/w/a.pdf"
        (ingest_document envT fsT "/w/a.pdf" dbEmpty none 1 3 []).2
        none 1 3 [] =
      (.ok 1, (ingest_document envT fsT "/w/a.pdf" dbEmpty none 1 3 []).2) :=
  claimC2_ingest_idempotent_by_content envT fsT "/w/a.pdf" "/w/a.pdf" dbEmpty
    _ [1, 2, 3] 1 none 1 3 [] none 1 3 [] rfl rfl (by rfl)

/-- Counterexample to C3: with an empty catalog snapshot and a concurrently
committed row of the same fingerprint (id 7), `session.flush()` raises the
uniqueness violation OUTSIDE the `try` block (ingest.py line 58 precedes
line 61), so ingest surfaces an error - not the existing id 7 the claim
promises. -/
theorem claimC3_counterexample :
    (ingest_document envT fsT "/w/a.pdf" dbEmpty none 1 3 [docConc]).1 =
      .error "IntegrityError: duplicate key value violates document hash uniqueness" :=
  rfl

/-- Claim C3 as amended: a fingerprint-uniqueness violation during document
creation propagates to the caller as an error (the transaction rolls back,
so nothing is marked failed and the catalog is unchanged); it is NOT
converted into the existing document's id. -/
theorem claimC3_uniqueness_violation_propagates (env : Env) (fs : FS)
    (p : String) (db : DB) (fid : Option Nat) (did rid : Nat)
    (conc : List Doc) (bytes : List Nat) (hc : fs.content p = some bytes)
    (hn : db.docs.find? (fun x => x.hash = env.digest bytes) = none)
    (ha : (db.docs ++ conc).any (fun x => x.hash = env.digest bytes) = true) :
    ingest_document env fs p db fid did rid conc =
      (.error "IntegrityError: duplicate key value violates document hash uniqueness",
       db) :=
  ingest_eq_integrity env fs p db fid did rid conc bytes hc hn ha

/-- Witness for the amended C3. -/
theorem claimC3_uniqueness_violation_propagates_witness :
    ingest_document envT fsT "/w/a.pdf" dbEmpty none 1 3 [docConc] =
      (.error "IntegrityError: duplicate key value violates document hash uniqueness",
       dbEmpty) :=
  claimC3_uniqueness_violation_propagates envT fsT "/w/a.pdf" dbEmpty
    none 1 3 [docConc] [1, 2, 3] rfl rfl rfl

/-- Counterexample to C4: the catalog holds a `failed` record (id 7) whose
fingerprint matches the unchanged file, and the environment's parser raises
on every file - so any fresh processing attempt would surface an error.
Yet ingest returns `ok 7` with the catalog untouched: the dedup check (which
does not filter by status) short-circuits, and no fresh attempt happens. -/
theorem claimC4_counterexample :
    ingest_document envFail fsT "/w/a.pdf" dbFailed none 1 3 [] =
      (.ok 7, dbFailed) :=
  rfl

/-- Claim C4 as amended: a `failed` catalog record with the file's unchanged
fingerprint makes a direct re-ingest of that path short-circuit: the dedup
query matches documents in any status, so the call returns the failed
record's id immediately and performs no fresh processing attempt. -/
theorem claimC4_failed_record_short_circuits (env : Env) (fs : FS)
    (p : String) (db : DB) (fid : Option Nat) (did rid : Nat)
    (conc : List Doc) (bytes : List Nat) (d : Doc)
    (hc : fs.content p = some bytes)
    (hf : db.docs.find? (fun x => x.hash = env.digest bytes) = some d)
    (hs : d.status = "failed") :
    ingest_document env fs p db fid did rid conc = (.ok d.doc_id, db) :=
  ingest_eq_dedup env fs p db fid did rid conc bytes d hc hf

/-- Witness for the amended C4. -/
theorem claimC4_failed_record_short_circuits_witness :
    ingest_document envFail fsT "/w/a.pdf" dbFailed none 1 3 [] =
      (.ok 7, dbFailed) ∧ docFailed.status = "failed" :=
  ⟨claimC4_failed_record_short_circuits envFail fsT "/w/a.pdf" dbFailed
    none 1 3 [] [1, 2, 3] docFailed rfl rfl rfl, rfl⟩

/-- Claim C9: a file whose parsed text is empty or whitespace-only yields
zero chunks; ingest then commits the document as `indexed` with its total
page count, returns its id, creates no chunk rows, and raises no error. -/
theorem claimC9_empty_content_indexed (env : Env) (fs : FS) (p : String)
    (db : DB) (fid : Option Nat) (did rid : Nat) (conc : List Doc)
    (bytes : List Nat) (res : ParseResult) (hc : fs.content p = some bytes)
    (hn : db.docs.find? (fun x => x.hash = env.digest bytes) = none)
    (ha : (db.docs ++ conc).any (fun x => x.hash = env.digest bytes) = false)
    (hp : env.parse p = .ok res) (ht : pyStrip res.raw_text = "") :
    ingest_document env fs p db fid did rid conc =
      (.ok db.nextId,
       { db with
           docs := db.docs ++
             [{ doc_id := db.nextId, folder_id := fid,
                file_name := baseName p, path := p,
                type := toLowerStr (dropDots (pathSuffix (baseName p))),
                hash := env.digest bytes, size := bytes.length,
                dept_id := did, role_id := rid,
                total_page_cnt := res.total_pages, status := "indexed",
                error_msg := none }]
           nextId := db.nextId + 1 }) :=
  ingest_eq_nochunks env fs p db fid did rid conc bytes res hc hn ha hp
    (chunk_text_of_strip_empty env.split env.tokenLength res.raw_text ht)

/-- Witness for C9: whitespace-only parse output commits an `indexed`
document with page count 5, id 1, and no chunk rows. -/
theorem claimC9_empty_content_indexed_witness :
    ingest_document envWs fsT "/w/a.pdf" dbEmpty none 1 3 [] =
      (.ok 1,
       { dbEmpty with
           docs := dbEmpty.docs ++
             [{ doc_id := 1, folder_id := none, file_name := "a.pdf",
                path := "/w/a.pdf", type := "pdf",
                hash := digestT [1, 2, 3], size := 3, dept_id := 1,
                role_id := 3, total_page_cnt := 5, status := "indexed",
                error_msg := none }]
           nextId := 2 }) :=
  claimC9_empty_content_indexed envWs fsT "/w/a.pdf" dbEmpty none 1 3 []
    [1, 2, 3] ⟨[], "  \n", 5⟩ rfl rfl rfl rfl (by rfl)

/-! ### Claims C5, C7, C8: batch runner and scanner -/

/-- A directory with one pdf whose content is already catalogued. -/
def fsC5 : FS := ⟨["/docs"], [⟨"/docs/b.pdf", [9]⟩], fun _ _ _ => false⟩

/-- The already-indexed document carrying the fingerprint of `/docs/b.pdf`. -/
def docDedup : Doc :=
  { doc_id := 7, folder_id := none, file_name := "old.pdf",
    path := "/old/old.pdf", type := "pdf", hash := digestT [9], size := 1,
    dept_id := 1, role_id := 3, total_page_cnt := 1, status := "indexed",
    error_msg := none }

/-- Catalog already holding that fingerprint. -/
def dbC5 : DB := ⟨[docDedup], [], [], 8⟩

/-- Claim C5: scanning one file whose fingerprint is already in the catalog.
The claim says the dedup outcome is counted under `skipped`.  The code
counts it under `success` with detail status "ok": `ingest_document` RETURNS
the existing id on a dedup hit (it does not raise), so the `except` branch
of `scan_and_ingest` that matches "already indexed" in an exception text -
the branch meant to produce `skipped` - is unreachable from a dedup outcome. -/
theorem claimC5_dedup_counted_success :
    scan_and_ingest envT fsC5 dbC5 "/docs" =
      .ok ({ total := 1, success := 1, failed := 0, skipped := 0,
             details := [{ file := "b.pdf", status := "ok", doc_id := some 7,
                           error := none }] },
           dbC5) :=
  rfl

/-- A filesystem with one existing directory and one file, none of them
under the missing root used by C7's amended claim. -/
def fsW7 : FS := ⟨["/d"], [⟨"/d/x.pdf", [1]⟩], fun _ _ _ => false⟩

/-- Counterexample to C7: scanning a nonexistent root with the default
options (recursive walk, no glob pattern) raises nothing and returns an
empty `ScanResult`, where the claim demands a `NotFoundError` and forbids
an empty result. -/
theorem claimC7_counterexample :
    scan_files digestT ⟨[], [], fun _ _ _ => false⟩ "/missing" =
      .ok ⟨"/missing", 0, [], []⟩ :=
  rfl

/-- Claim C7 as amended: `scan_files` fails on a missing (or non-directory)
root only in the non-recursive no-pattern mode, where `Path.iterdir` raises;
the recursive walk (`os.walk` reports errors to an unset callback) and the
glob mode (glob lists only existing paths) return an empty result instead. -/
theorem claimC7_missing_root_only_iterdir_raises (digest : List Nat → String)
    (fs : FS) (root : String) (exts : Option (List String)) (ch : Bool)
    (hroot : fs.dirs.contains root = false) :
    ((∀ f ∈ fs.files, isUnder root f.path = false) →
      scan_files digest fs root exts none true ch = .ok ⟨root, 0, [], []⟩) ∧
    (∀ pat rec,
      (∀ f ∈ fs.files, fs.globPred (pathJoin root pat) rec f.path = false) →
      scan_files digest fs root exts (some pat) rec ch =
        .ok ⟨root, 0, [], []⟩) ∧
    scan_files digest fs root exts none false ch =
      .error ("FileNotFoundError: " ++ root) := by
  refine ⟨?_, ?_, ?_⟩
  · intro hw
    have h1 : fs.files.filter (fun f => isUnder root f.path) = [] := by
      rw [List.filter_eq_nil_iff]
      intro f hf
      simp [hw f hf]
    simp [scan_files, scanCandidates, h1, sortByName]
  · intro pat rec hg
    have h1 : fs.files.filter
        (fun f => fs.globPred (pathJoin root pat) rec f.path) = [] := by
      rw [List.filter_eq_nil_iff]
      intro f hf
      simp [hg f hf]
    simp [scan_files, scanCandidates, h1, sortByName]
  · have h2 : ¬ root ∈ fs.dirs := by simpa using hroot
    simp [scan_files, scanCandidates, h2]

/-- Witness for the amended C7, on a filesystem that does have another
directory and file elsewhere. -/
theorem claimC7_missing_root_only_iterdir_raises_witness :
    scan_files digestT fsW7 "/missing" none none true true =
      .ok ⟨"/missing", 0, [], []⟩ ∧
    scan_files digestT fsW7 "/missing" none (some "*.pdf") true true =
      .ok ⟨"/missing", 0, [], []⟩ ∧
    scan_files digestT fsW7 "/missing" none none false true =
      .error "FileNotFoundError: /missing" :=
  ⟨(claimC7_missing_root_only_iterdir_raises digestT fsW7 "/missing" none true
      (by decide)).1 (by decide),
   (claimC7_missing_root_only_iterdir_raises digestT fsW7 "/missing" none true
      (by decide)).2.1 "*.pdf" true (by decide),
   (claimC7_missing_root_only_iterdir_raises digestT fsW7 "/missing" none true
      (by decide)).2.2⟩

/-- A directory with one two-byte pdf. -/
def fs8 : FS := ⟨["/d"], [⟨"/d/a.pdf", [1, 2]⟩], fun _ _ _ => false⟩

/-- Counterexample to C8: the claim says `computeHash` defaults to false and
a default scan records empty fingerprints.  The source default is
`compute_hash: bool = True`: a default call hashes the file and records a
non-empty fingerprint. -/
theorem claimC8_counterexample :
    scan_files digestT fs8 "/d" =
      .ok ⟨"/d", 1, [⟨"/d/a.pdf", "a.pdf", ".pdf", 2, "H[1, 2]"⟩],
           [("pdf", 1)]⟩ :=
  rfl

/-- `scanStep` with hashing off never consults the digest. -/
theorem scanStep_false_digest_irrel (d1 d2 : List Nat → String)
    (te : List String) : scanStep d1 te false = scanStep d2 te false := by
  funext acc f
  unfold scanStep
  simp

/-- Membership in `insertByName` comes from the inserted element or the
original list. -/
theorem mem_insertByName (x y : FileInfo) (l : List FileInfo)
    (h : x ∈ insertByName y l) : x = y ∨ x ∈ l := by
  induction l with
  | nil => simpa [insertByName] using h
  | cons z zs ih =>
    unfold insertByName at h
    by_cases hc : strLe z.name y.name = true
    · simp [hc] at h
      rcases h with h | h
      · exact Or.inr (by simp [h])
      · rcases ih h with h2 | h2
        · exact Or.inl h2
        · exact Or.inr (by simp [h2])
    · simp [hc] at h
      rcases h with h | h | h
      · exact Or.inl h
      · exact Or.inr (by simp [h])
      · exact Or.inr (by simp [h])

/-- Membership after the stable name sort implies membership before it. -/
theorem mem_sortByName_aux (l : List FileInfo) :
    ∀ acc x, x ∈ l.foldl (fun a z => insertByName z a) acc →
      x ∈ acc ∨ x ∈ l := by
  induction l with
  | nil => intro acc x h; exact Or.inl h
  | cons z zs ih =>
    intro acc x h
    rcases ih (insertByName z acc) x h with h2 | h2
    · rcases mem_insertByName x z acc h2 with h3 | h3
      · exact Or.inr (by simp [h3])
      · exact Or.inl h3
    · exact Or.inr (by simp [h2])

/-- Every file record folded up with hashing off carries an empty hash. -/
theorem foldl_scanStep_false_hash (digest : List Nat → String)
    (te : List String) (cs : List FSFile) :
    ∀ acc : List FileInfo × List (String × Nat),
      (∀ fi ∈ acc.1, fi.hash = "") →
      ∀ fi ∈ (cs.foldl (scanStep digest te false) acc).1, fi.hash = "" := by
  induction cs with
  | nil => intro acc hacc fi hfi; exact hacc fi hfi
  | cons c cs2 ih =>
    intro acc hacc fi hfi
    refine ih (scanStep digest te false acc c) ?_ fi hfi
    intro fj hfj
    unfold scanStep at hfj
    dsimp only at hfj
    split at hfj
    · dsimp only at hfj
      rcases List.mem_append.mp hfj with h | h
      · exact hacc fj h
      · simp only [List.mem_singleton] at h
        simp [h]
    · exact hacc fj hfj

/-- Claim C8 as amended: the source default is `compute_hash = True`, so an
explicit `False` is the opt-out; with hashing off the scan result is
independent of the digest function (no content hashing happens) and every
returned `FileInfo` carries an empty fingerprint. -/
theorem claimC8_hash_default_true_opt_out :
    (∀ (digest : List Nat → String) (fs : FS) (dir : String)
       (exts : Option (List String)) (pat : Option String) (rec : Bool),
       scan_files digest fs dir exts pat rec =
         scan_files digest fs dir exts pat rec true) ∧
    (∀ (d1 d2 : List Nat → String) (fs : FS) (dir : String)
       (exts : Option (List String)) (pat : Option String) (rec : Bool),
       scan_files d1 fs dir exts pat rec false =
         scan_files d2 fs dir exts pat rec false) ∧
    (∀ (digest : List Nat → String) (fs : FS) (dir : String)
       (exts : Option (List String)) (pat : Option String) (rec : Bool)
       (r : ScanResult),
       scan_files digest fs dir exts pat rec false = .ok r →
       ∀ fi ∈ r.files, fi.hash = "") := by
  refine ⟨fun _ _ _ _ _ _ => rfl, ?_, ?_⟩
  · intro d1 d2 fs dir exts pat rec
    unfold scan_files
    dsimp only
    rw [scanStep_false_digest_irrel d1 d2 (exts.getD SUPPORTED_EXTENSIONS)]
  · intro digest fs dir exts pat rec r h fi hfi
    unfold scan_files at h
    dsimp only at h
    cases hc : scanCandidates fs dir pat rec with
    | error e =>
      rw [hc] at h
      simp at h
    | ok cs =>
      rw [hc] at h
      simp only [Except.ok.injEq] at h
      subst h
      have hmem := mem_sortByName_aux
        (cs.foldl (scanStep digest (exts.getD SUPPORTED_EXTENSIONS) false)
          ([], [])).1 [] fi (by simpa using hfi)
      simp only [List.not_mem_nil, false_or] at hmem
      exact foldl_scanStep_false_hash digest (exts.getD SUPPORTED_EXTENSIONS)
        cs ([], []) (by intro fj hfj; simp at hfj) fi hmem

/-- Witness for the amended C8. -/
theorem claimC8_hash_default_true_opt_out_witness :
    scan_files digestT fs8 "/d" none none true false =
      scan_files (fun _ => "ZZZ") fs8 "/d" none none true false ∧
    ({ path := "/d/a.pdf", name := "a.pdf", extension := ".pdf", size := 2,
       hash := "" } : FileInfo).hash = "" :=
  ⟨claimC8_hash_default_true_opt_out.2.1 digestT (fun _ => "ZZZ") fs8 "/d"
     none none true,
   claimC8_hash_default_true_opt_out.2.2 digestT fs8 "/d" none none true
     ⟨"/d", 1, [⟨"/d/a.pdf", "a.pdf", ".pdf", 2, ""⟩], [("pdf", 1)]⟩ (by rfl)
     _ (by simp)⟩

/-! ### Invariants used to reason about `run_sync` -/

/-- The external collaborators succeed on `p`: the file is readable, its
parse succeeds, and either chunking is empty or the batch embedding
succeeds.  Under this condition `ingest_document` cannot raise (with no
concurrent writer). -/
def pipelineOk (env : Env) (fs : FS) (p : String) : Prop :=
  ∃ bytes res, fs.content p = some bytes ∧ env.parse p = .ok res ∧
    (chunk_text env.split env.tokenLength res.raw_text = [] ∨
     ∃ vs, env.embed ((chunk_text env.split env.tokenLength
       res.raw_text).map (fun c => c.text)) = .ok vs)

/-- Autoincrement well-formedness of the catalog: every stored id is below
the next id to be assigned. -/
def dbWF (db : DB) : Prop :=
  (∀ d ∈ db.docs, d.doc_id < db.nextId) ∧
  (∀ c ∈ db.chunks, c.doc_id < db.nextId)

/-- `db2` extends `db`: rows are only appended, and appended rows carry ids
in `[db.nextId, db2.nextId)`. -/
def DBExtends (db db2 : DB) : Prop :=
  db.nextId ≤ db2.nextId ∧
  (∃ ld, db2.docs = db.docs ++ ld ∧
    ∀ d ∈ ld, db.nextId ≤ d.doc_id ∧ d.doc_id < db2.nextId) ∧
  (∃ lc, db2.chunks = db.chunks ++ lc ∧
    ∀ c ∈ lc, db.nextId ≤ c.doc_id ∧ c.doc_id < db2.nextId)

theorem DBExtends_refl (db : DB) : DBExtends db db :=
  ⟨le_rfl, ⟨[], by simp⟩, ⟨[], by simp⟩⟩

theorem DBExtends_trans {a b c : DB} (h1 : DBExtends a b) (h2 : DBExtends b c) :
    DBExtends a c := by
  obtain ⟨hn1, ⟨ld1, hd1, hb1⟩, ⟨lc1, hc1, hbc1⟩⟩ := h1
  obtain ⟨hn2, ⟨ld2, hd2, hb2⟩, ⟨lc2, hc2, hbc2⟩⟩ := h2
  refine ⟨le_trans hn1 hn2, ⟨ld1 ++ ld2, ?_, ?_⟩, ⟨lc1 ++ lc2, ?_, ?_⟩⟩
  · rw [hd2, hd1, List.append_assoc]
  · intro d hd
    rcases List.mem_append.mp hd with h | h
    · exact ⟨(hb1 d h).1, lt_of_lt_of_le (hb1 d h).2 hn2⟩
    · exact ⟨le_trans hn1 (hb2 d h).1, (hb2 d h).2⟩
  · rw [hc2, hc1, List.append_assoc]
  · intro d hd
    rcases List.mem_append.mp hd with h | h
    · exact ⟨(hbc1 d h).1, lt_of_lt_of_le (hbc1 d h).2 hn2⟩
    · exact ⟨le_trans hn1 (hbc2 d h).1, (hbc2 d h).2⟩

/-- Every `ingest_document` call only appends rows, with fresh ids. -/
theorem ingest_extends (env : Env) (fs : FS) (p : String) (db : DB)
    (fid : Option Nat) (did rid : Nat) (conc : List Doc) :
    DBExtends db (ingest_document env fs p db fid did rid conc).2 := by
  cases hc : fs.content p with
  | none =>
    rw [ingest_eq_ioerr env fs p db fid did rid conc hc]
    exact DBExtends_refl db
  | some bytes =>
    cases hf : db.docs.find? (fun x => x.hash = env.digest bytes) with
    | some d =>
      rw [ingest_eq_dedup env fs p db fid did rid conc bytes d hc hf]
      exact DBExtends_refl db
    | none =>
      cases ha : (db.docs ++ conc).any (fun x => x.hash = env.digest bytes) with
      | true =>
        rw [ingest_eq_integrity env fs p db fid did rid conc bytes hc hf ha]
        exact DBExtends_refl db
      | false =>
        cases hp : env.parse p with
        | error e2 =>
          rw [ingest_eq_parsefail env fs p db fid did rid conc bytes e2 hc hf ha hp]
          exact DBExtends_refl db
        | ok res =>
          cases hz : (chunk_text env.split env.tokenLength res.raw_text).isEmpty with
          | true =>
            rw [ingest_eq_nochunks env fs p db fid did rid conc bytes res hc hf ha
              hp (List.isEmpty_iff.mp hz)]
            exact ⟨Nat.le_succ _, ⟨[_], rfl, by simp⟩, ⟨[], by simp⟩⟩
          | false =>
            cases he : env.embed ((chunk_text env.split env.tokenLength
                res.raw_text).map (fun c => c.text)) with
            | error e2 =>
              rw [ingest_eq_embedfail env fs p db fid did rid conc bytes res e2
                hc hf ha hp hz he]
              exact DBExtends_refl db
            | ok vs =>
              rw [ingest_eq_success env fs p db fid did rid conc bytes res vs
                hc hf ha hp hz he]
              refine ⟨Nat.le_succ _, ⟨[_], rfl, by simp⟩, ⟨_, rfl, ?_⟩⟩
              intro c hcm
              rcases List.mem_map.mp hcm with ⟨q, _, hq⟩
              rw [← hq]
              simp

/-- Pair-equation form of `ingest_extends`. -/
theorem ingest_extends' (env : Env) (fs : FS) (p : String) (db : DB)
    (fid : Option Nat) (did rid : Nat) (conc : List Doc)
    (r : Except String Nat) (d2 : DB)
    (h : ingest_document env fs p db fid did rid conc = (r, d2)) :
    DBExtends db d2 := by
  have h2 := ingest_extends env fs p db fid did rid conc
  rwa [h] at h2

/-- With working collaborators and no concurrent writer, ingest returns
`ok`. -/
theorem ingest_ok_of_pipelineOk (env : Env) (fs : FS) (p : String)
    (hok : pipelineOk env fs p) (db : DB) (fid : Option Nat) (did rid : Nat) :
    ∃ i d2, ingest_document env fs p db fid did rid [] = (.ok i, d2) := by
  obtain ⟨bytes, res, hc, hp, hrest⟩ := hok
  cases hf : db.docs.find? (fun x => x.hash = env.digest bytes) with
  | some d => exact ⟨d.doc_id, db, ingest_eq_dedup env fs p db fid did rid [] bytes d hc hf⟩
  | none =>
    have ha : (db.docs ++ []).any (fun x => x.hash = env.digest bytes) = false := by
      rw [List.append_nil, List.any_eq_false]
      intro x hx
      exact List.find?_eq_none.mp hf x hx
    by_cases hz : chunk_text env.split env.tokenLength res.raw_text = []
    · exact ⟨_, _, ingest_eq_nochunks env fs p db fid did rid [] bytes res hc hf ha hp hz⟩
    · have hz2 : (chunk_text env.split env.tokenLength res.raw_text).isEmpty = false := by
        cases hck : chunk_text env.split env.tokenLength res.raw_text with
        | nil => exact absurd hck hz
        | cons a l => rfl
      rcases hrest with hz3 | ⟨vs, he⟩
      · exact absurd hz3 hz
      · exact ⟨_, _, ingest_eq_success env fs p db fid did rid [] bytes res vs hc hf ha hp hz2 he⟩

/-- Pointwise order on sync counters: counters only ever grow. -/
def statsLE (s t : SyncStats) : Prop :=
  s.new ≤ t.new ∧ s.modified ≤ t.modified ∧ s.deleted ≤ t.deleted ∧
  s.unchanged ≤ t.unchanged ∧ s.errors ≤ t.errors

theorem statsLE_refl (s : SyncStats) : statsLE s s :=
  ⟨le_rfl, le_rfl, le_rfl, le_rfl, le_rfl⟩

theorem statsLE_trans {a b c : SyncStats} (h1 : statsLE a b) (h2 : statsLE b c) :
    statsLE a c :=
  ⟨le_trans h1.1 h2.1, le_trans h1.2.1 h2.2.1, le_trans h1.2.2.1 h2.2.2.1,
   le_trans h1.2.2.2.1 h2.2.2.2.1, le_trans h1.2.2.2.2 h2.2.2.2.2⟩

/-- A step-preserved predicate holds after any fold. -/
theorem foldl_inv {α : Type} (step : SyncAcc → α → SyncAcc)
    (I : SyncAcc → Prop) (hstep : ∀ acc e, I acc → I (step acc e)) :
    ∀ (l : List α) (acc : SyncAcc), I acc → I (l.foldl step acc) := by
  intro l
  induction l with
  | nil => intro acc h; exact h
  | cons e l2 ih => intro acc h; exact ih (step acc e) (hstep acc e h)

/-- The swallowed Qdrant failure: a doc_id whose deletion fails keeps its
points; more generally any id the store refuses to delete survives every
`_delete_document_data` call. -/
theorem mem_delete_document_data (q : Nat → Bool) (vs : List Nat) (i x : Nat)
    (hx : q x = false) (hm : x ∈ vs) : x ∈ delete_document_data q vs i := by
  unfold delete_document_data
  split
  · next hq =>
    refine List.mem_filter.mpr ⟨hm, ?_⟩
    have hne : x ≠ i := by
      intro h
      rw [h] at hx
      rw [hx] at hq
      exact Bool.false_ne_true hq
    simp [hne]
  · exact hm

/-- `syncStep` preserves the four run invariants: the committed catalog only
extends, counters only grow, pending deletes only accumulate, and vector
points whose deletion the store refuses survive. -/
theorem syncStep_inv (env : Env) (fs : FS) (q : Nat → Bool) (dm : List Doc)
    (acc : SyncAcc) (e : String × Nat) :
    DBExtends acc.committed (syncStep env fs q dm acc e).committed ∧
    statsLE acc.stats (syncStep env fs q dm acc e).stats ∧
    (∀ x ∈ acc.pending, x ∈ (syncStep env fs q dm acc e).pending) ∧
    (∀ x, q x = false → x ∈ acc.vstore →
      x ∈ (syncStep env fs q dm acc e).vstore) := by
  unfold syncStep
  cases hfind : dm.find? (fun d => d.path = e.1) with
  | none =>
    rcases hing : ingest_document env fs e.1 acc.committed with ⟨r, d⟩
    cases r with
    | ok i =>
      simp only [hing]
      exact ⟨ingest_extends' env fs e.1 acc.committed none 1 3 [] _ _ hing,
        ⟨Nat.le_succ _, le_rfl, le_rfl, le_rfl, le_rfl⟩,
        fun x hx => hx, fun x _ hx => hx⟩
    | error er =>
      simp only [hing]
      exact ⟨ingest_extends' env fs e.1 acc.committed none 1 3 [] _ _ hing,
        ⟨le_rfl, le_rfl, le_rfl, le_rfl, Nat.le_succ _⟩,
        fun x hx => hx, fun x _ hx => hx⟩
  | some old_doc =>
    dsimp only
    by_cases hsz : old_doc.size ≠ e.2
    · rw [if_pos hsz]
      rcases hing : ingest_document env fs e.1 acc.committed with ⟨r, d⟩
      cases r with
      | ok i =>
        simp only [hing]
        exact ⟨ingest_extends' env fs e.1 acc.committed none 1 3 [] _ _ hing,
          ⟨le_rfl, Nat.le_succ _, le_rfl, le_rfl, le_rfl⟩,
          fun x hx => List.mem_append_left _ hx,
          fun x hqx hx => mem_delete_document_data q acc.vstore old_doc.doc_id x hqx hx⟩
      | error er =>
        simp only [hing]
        exact ⟨ingest_extends' env fs e.1 acc.committed none 1 3 [] _ _ hing,
          ⟨le_rfl, le_rfl, le_rfl, le_rfl, Nat.le_succ _⟩,
          fun x hx => List.mem_append_left _ hx,
          fun x hqx hx => mem_delete_document_data q acc.vstore old_doc.doc_id x hqx hx⟩
    · rw [if_neg hsz]
      cases hcont : fs.content e.1 with
      | none =>
        simp only [hcont]
        exact ⟨DBExtends_refl _,
          ⟨le_rfl, le_rfl, le_rfl, le_rfl, Nat.le_succ _⟩,
          fun x hx => hx, fun x _ hx => hx⟩
      | some bytes =>
        simp only [hcont]
        by_cases hh : old_doc.hash ≠ env.digest bytes
        · rw [if_pos hh]
          rcases hing : ingest_document env fs e.1 acc.committed with ⟨r, d⟩
          cases r with
          | ok i =>
            simp only [hing]
            exact ⟨ingest_extends' env fs e.1 acc.committed none 1 3 [] _ _ hing,
              ⟨le_rfl, Nat.le_succ _, le_rfl, le_rfl, le_rfl⟩,
              fun x hx => List.mem_append_left _ hx,
              fun x hqx hx =>
                mem_delete_document_data q acc.vstore old_doc.doc_id x hqx hx⟩
          | error er =>
            simp only [hing]
            exact ⟨ingest_extends' env fs e.1 acc.committed none 1 3 [] _ _ hing,
              ⟨le_rfl, le_rfl, le_rfl, le_rfl, Nat.le_succ _⟩,
              fun x hx => List.mem_append_left _ hx,
              fun x hqx hx =>
                mem_delete_document_data q acc.vstore old_doc.doc_id x hqx hx⟩
        · rw [if_neg hh]
          exact ⟨DBExtends_refl _,
            ⟨le_rfl, le_rfl, le_rfl, Nat.le_succ _, le_rfl⟩,
            fun x hx => hx, fun x _ hx => hx⟩

/-- `syncDelStep` preserves the same four run invariants. -/
theorem syncDelStep_inv (q : Nat → Bool) (disk : List (String × Nat))
    (acc : SyncAcc) (doc : Doc) :
    DBExtends acc.committed (syncDelStep q disk acc doc).committed ∧
    statsLE acc.stats (syncDelStep q disk acc doc).stats ∧
    (∀ x ∈ acc.pending, x ∈ (syncDelStep q disk acc doc).pending) ∧
    (∀ x, q x = false → x ∈ acc.vstore →
      x ∈ (syncDelStep q disk acc doc).vstore) := by
  unfold syncDelStep
  split
  · exact ⟨DBExtends_refl _, statsLE_refl _, fun x hx => hx, fun x _ hx => hx⟩
  · exact ⟨DBExtends_refl _,
      ⟨le_rfl, le_rfl, Nat.le_succ _, le_rfl, le_rfl⟩,
      fun x hx => List.mem_append_left _ hx,
      fun x hqx hx => mem_delete_document_data q acc.vstore doc.doc_id x hqx hx⟩

/-- Every entry of the sync path map is one of the catalog's document rows. -/
theorem dbMapList_sub (docs : List Doc) (d : Doc) (h : d ∈ dbMapList docs) :
    d ∈ docs := by
  unfold dbMapList at h
  rcases List.mem_filterMap.mp h with ⟨p, _, hfind⟩
  have h2 := List.mem_of_find?_eq_some hfind
  rw [List.mem_reverse] at h2
  exact (List.mem_filter.mp h2).1

/-- The accumulator a sync run starts from. -/
def syncAcc0 (db : DB) (vstore : List Nat) : SyncAcc :=
  ⟨⟨0, 0, 0, 0, 0⟩, db, [], vstore⟩

/-- The accumulator a sync run ends with (both loops folded). -/
def syncAccF (env : Env) (fs : FS) (q : Nat → Bool) (watch : String)
    (db : DB) (vstore : List Nat) : SyncAcc :=
  (dbMapList db.docs).foldl (syncDelStep q (scan_directory env.digest fs watch))
    ((scan_directory env.digest fs watch).foldl
      (syncStep env fs q (dbMapList db.docs)) (syncAcc0 db vstore))

/-- On an existing watch directory, `run_sync` returns the folded stats, the
commit of the folded accumulator, and its vector-store state. -/
theorem run_sync_components (env : Env) (fs : FS) (q : Nat → Bool)
    (watch : String) (db : DB) (vstore : List Nat)
    (hw : fs.dirs.contains watch = true) :
    ∃ jb : Job,
      run_sync env fs q watch db vstore =
        (.ok (syncAccF env fs q watch db vstore).stats,
         syncCommit (syncAccF env fs q watch db vstore) jb,
         (syncAccF env fs q watch db vstore).vstore) := by
  refine ⟨{ job_name := "daily_sync", job_type := "nas_sync",
            status := if (syncAccF env fs q watch db vstore).stats.errors = 0
                      then "completed" else "completed_with_errors",
            last_error := if (syncAccF env fs q watch db vstore).stats.errors = 0
                          then none
                          else some (statsLine
                            (syncAccF env fs q watch db vstore).stats) }, ?_⟩
  unfold run_sync syncAccF syncAcc0
  rw [hw]
  rfl

/-- After the final commit, a doc_id that is pending deletion and below the
original autoincrement bound owns no document row and no chunk rows. -/
theorem syncCommit_no_doc (db : DB) (acc : SyncAcc) (jb : Job) (i : Nat)
    (hext : DBExtends db acc.committed) (hpend : i ∈ acc.pending)
    (hlt : i < db.nextId) :
    (syncCommit acc jb).docs.filter (fun d => d.doc_id == i) = [] ∧
    (syncCommit acc jb).chunks.filter (fun c => c.doc_id == i) = [] := by
  obtain ⟨hn, ⟨ld, hdocs, hb⟩, ⟨lc, hchunks, hbc⟩⟩ := hext
  constructor
  · rw [List.filter_eq_nil_iff]
    intro d hd
    unfold syncCommit at hd
    rcases List.mem_filter.mp hd with ⟨hd1, hd2⟩
    rw [hdocs] at hd1
    simp only [beq_iff_eq]
    intro heq
    rcases List.mem_append.mp hd1 with h | h
    · rw [heq] at hd2
      simp at hd2
      exact hd2 hpend
    · have h2 := (hb d h).1
      omega
  · rw [List.filter_eq_nil_iff]
    intro c hc
    unfold syncCommit at hc
    rcases List.mem_filter.mp hc with ⟨hc1, hc2⟩
    rw [hchunks] at hc1
    simp only [beq_iff_eq]
    intro heq
    rcases List.mem_append.mp hc1 with h | h
    · rw [heq] at hc2
      simp at hc2
      exact hc2 hpend
    · have h2 := (hbc c h).1
      omega

/-- Claim C6: during a sync run, a path present on disk and in the catalog
with equal byte size is settled by fingerprinting it at that point: on a
fingerprint mismatch its step deletes the old document (its doc_id enters
the outer session's pending deletes, applied at commit, so neither its
document row nor its chunk rows survive in the final catalog), re-ingests
the path (the step's committed state is the ingest call's result), and
increments exactly the `modified` counter, which the final stats retain; on
a fingerprint match its step increments exactly the `unchanged` counter and
performs no mutation at all for the path. -/
theorem claimC6_sync_same_size_fingerprint (env : Env) (fs : FS)
    (q : Nat → Bool) (watch : String) (db : DB) (vstore : List Nat)
    (l1 l2 : List (String × Nat)) (p : String) (sz : Nat) (doc : Doc)
    (bytes : List Nat) (acc1 : SyncAcc)
    (hw : fs.dirs.contains watch = true)
    (hsplit : scan_directory env.digest fs watch = l1 ++ (p, sz) :: l2)
    (hfind : (dbMapList db.docs).find? (fun d => d.path = p) = some doc)
    (hsz : doc.size = sz)
    (hb : fs.content p = some bytes)
    (hwf : dbWF db)
    (hacc1 : acc1 = l1.foldl (syncStep env fs q (dbMapList db.docs))
        (syncAcc0 db vstore)) :
    (doc.hash ≠ env.digest bytes → pipelineOk env fs p →
      (∃ i, (ingest_document env fs p acc1.committed).1 = .ok i) ∧
      syncStep env fs q (dbMapList db.docs) acc1 (p, sz) =
        { stats := { acc1.stats with modified := acc1.stats.modified + 1 }
          committed := (ingest_document env fs p acc1.committed).2
          pending := acc1.pending ++ [doc.doc_id]
          vstore := delete_document_data q acc1.vstore doc.doc_id } ∧
      (run_sync env fs q watch db vstore).2.1.docs.filter
          (fun d => d.doc_id == doc.doc_id) = [] ∧
      (run_sync env fs q watch db vstore).2.1.chunks.filter
          (fun c => c.doc_id == doc.doc_id) = [] ∧
      (∃ s, (run_sync env fs q watch db vstore).1 = .ok s ∧
        acc1.stats.modified + 1 ≤ s.modified)) ∧
    (doc.hash = env.digest bytes →
      syncStep env fs q (dbMapList db.docs) acc1 (p, sz) =
        { acc1 with stats :=
            { acc1.stats with unchanged := acc1.stats.unchanged + 1 } } ∧
      (∃ s, (run_sync env fs q watch db vstore).1 = .ok s ∧
        acc1.stats.unchanged + 1 ≤ s.unchanged)) := by
  have hdocmem : doc ∈ db.docs :=
    dbMapList_sub db.docs doc (List.mem_of_find?_eq_some hfind)
  have hdoclt : doc.doc_id < db.nextId := hwf.1 doc hdocmem
  have hext1 : DBExtends db acc1.committed := by
    subst hacc1
    exact foldl_inv _ (fun a => DBExtends db a.committed)
      (fun a e h =>
        DBExtends_trans h (syncStep_inv env fs q (dbMapList db.docs) a e).1)
      l1 _ (DBExtends_refl db)
  obtain ⟨jb, hrun⟩ := run_sync_components env fs q watch db vstore hw
  have hAccF : syncAccF env fs q watch db vstore =
      (dbMapList db.docs).foldl (syncDelStep q (l1 ++ (p, sz) :: l2))
        (l2.foldl (syncStep env fs q (dbMapList db.docs))
          (syncStep env fs q (dbMapList db.docs) acc1 (p, sz))) := by
    unfold syncAccF
    rw [hsplit, List.foldl_append, List.foldl_cons, ← hacc1]
  constructor
  · intro hne hpok
    obtain ⟨i, d2, hing⟩ :=
      ingest_ok_of_pipelineOk env fs p hpok acc1.committed none 1 3
    have hstepEq : syncStep env fs q (dbMapList db.docs) acc1 (p, sz) =
        { stats := { acc1.stats with modified := acc1.stats.modified + 1 }
          committed := (ingest_document env fs p acc1.committed).2
          pending := acc1.pending ++ [doc.doc_id]
          vstore := delete_document_data q acc1.vstore doc.doc_id } := by
      unfold syncStep
      dsimp only
      simp only [hfind]
      rw [if_neg (fun h => h hsz)]
      simp only [hb]
      rw [if_pos hne]
      rw [hing]
    refine ⟨⟨i, by rw [hing]⟩, hstepEq, ?_⟩
    have hJP : DBExtends db
          (syncStep env fs q (dbMapList db.docs) acc1 (p, sz)).committed ∧
        doc.doc_id ∈
          (syncStep env fs q (dbMapList db.docs) acc1 (p, sz)).pending ∧
        acc1.stats.modified + 1 ≤
          (syncStep env fs q (dbMapList db.docs) acc1 (p, sz)).stats.modified := by
      rw [hstepEq]
      refine ⟨DBExtends_trans hext1
        (ingest_extends env fs p acc1.committed none 1 3 []), ?_, le_rfl⟩
      simp
    have hJF : DBExtends db (syncAccF env fs q watch db vstore).committed ∧
        doc.doc_id ∈ (syncAccF env fs q watch db vstore).pending ∧
        acc1.stats.modified + 1 ≤
          (syncAccF env fs q watch db vstore).stats.modified := by
      rw [hAccF]
      refine foldl_inv _ (fun a => DBExtends db a.committed ∧
          doc.doc_id ∈ a.pending ∧
          acc1.stats.modified + 1 ≤ a.stats.modified) ?_ _ _
        (foldl_inv _ (fun a => DBExtends db a.committed ∧
            doc.doc_id ∈ a.pending ∧
            acc1.stats.modified + 1 ≤ a.stats.modified) ?_ _ _ hJP)
      · intro a e h
        obtain ⟨hI, hII, hIII⟩ := h
        refine ⟨DBExtends_trans hI (syncDelStep_inv q _ a e).1,
          (syncDelStep_inv q _ a e).2.2.1 _ hII,
          le_trans hIII (syncDelStep_inv q _ a e).2.1.2.1⟩
      · intro a e h
        obtain ⟨hI, hII, hIII⟩ := h
        refine ⟨DBExtends_trans hI
            (syncStep_inv env fs q (dbMapList db.docs) a e).1,
          (syncStep_inv env fs q (dbMapList db.docs) a e).2.2.1 _ hII,
          le_trans hIII
            (syncStep_inv env fs q (dbMapList db.docs) a e).2.1.2.1⟩
    have hcommit := syncCommit_no_doc db (syncAccF env fs q watch db vstore)
      jb doc.doc_id hJF.1 hJF.2.1 hdoclt
    refine ⟨?_, ?_, ?_⟩
    · rw [hrun]
      exact hcommit.1
    · rw [hrun]
      exact hcommit.2
    · exact ⟨(syncAccF env fs q watch db vstore).stats, by rw [hrun],
        hJF.2.2⟩
  · intro heq
    have hstepEq : syncStep env fs q (dbMapList db.docs) acc1 (p, sz) =
        { acc1 with stats :=
            { acc1.stats with unchanged := acc1.stats.unchanged + 1 } } := by
      unfold syncStep
      dsimp only
      simp only [hfind]
      rw [if_neg (fun h => h hsz)]
      simp only [hb]
      rw [if_neg (fun h => h heq)]
    refine ⟨hstepEq, ?_⟩
    have hJP : acc1.stats.unchanged + 1 ≤
        (syncStep env fs q (dbMapList db.docs) acc1 (p, sz)).stats.unchanged := by
      rw [hstepEq]
    have hJF : acc1.stats.unchanged + 1 ≤
        (syncAccF env fs q watch db vstore).stats.unchanged := by
      rw [hAccF]
      refine foldl_inv _
        (fun a => acc1.stats.unchanged + 1 ≤ a.stats.unchanged) ?_ _ _
        (foldl_inv _
          (fun a => acc1.stats.unchanged + 1 ≤ a.stats.unchanged) ?_ _ _ hJP)
      · intro a e h
        exact le_trans h (syncDelStep_inv q _ a e).2.1.2.2.2.1
      · intro a e h
        exact le_trans h
          (syncStep_inv env fs q (dbMapList db.docs) a e).2.1.2.2.2.1
    exact ⟨(syncAccF env fs q watch db vstore).stats, by rw [hrun], hJF⟩

/-- A catalogued document at `/w/a.pdf` of matching size 3 but stale
fingerprint "OLD". -/
def d6 : Doc :=
  { doc_id := 5, folder_id := none, file_name := "a.pdf",
    path := "/w/a.pdf", type := "pdf", hash := "OLD", size := 3,
    dept_id := 1, role_id := 3, total_page_cnt := 1, status := "indexed",
    error_msg := none }

/-- Catalog holding `d6` and one chunk row of it. -/
def db6 : DB := ⟨[d6], [⟨5, 0, "old chunk", 2, none, [0], "e5"⟩], [], 6⟩

/-- Witness for C6: syncing `/w` when the only file kept its size but
changed content deletes document 5 and its chunk rows from the final
catalog. -/
theorem claimC6_sync_same_size_fingerprint_witness :
    (run_sync envT fsT (fun _ => true) "/w" db6 []).2.1.docs.filter
        (fun d => d.doc_id == 5) = [] ∧
    (run_sync envT fsT (fun _ => true) "/w" db6 []).2.1.chunks.filter
        (fun c => c.doc_id == 5) = [] :=
  have h := (claimC6_sync_same_size_fingerprint envT fsT (fun _ => true) "/w"
    db6 [] [] [] "/w/a.pdf" 3 d6 [1, 2, 3] (syncAcc0 db6 []) (by decide) rfl
    rfl rfl rfl (by unfold dbWF; decide) rfl).1 (by decide)
    ⟨[1, 2, 3], ⟨[⟨1, "hello world"⟩], "hello world", 1⟩, rfl, rfl,
      Or.inr ⟨[[1, 0]], rfl⟩⟩
  ⟨h.2.2.1, h.2.2.2.1⟩

/-- Claim C10: when sync removes a document whose path is gone from disk
while the vector store refuses to delete its points (`q doc.doc_id = false`),
the failure is swallowed: the deletion step still increments exactly the
`deleted` counter (retained by the final stats) and queues the catalog
deletes, so the final catalog holds no document or chunk rows for that id -
yet the vector store still contains the document's points after the run:
the run reports the deletion as successful while orphaned vectors remain. -/
theorem claimC10_vector_delete_failure_swallowed (env : Env) (fs : FS)
    (q : Nat → Bool) (watch : String) (db : DB) (vstore : List Nat)
    (m1 m2 : List Doc) (doc : Doc) (accMid : SyncAcc)
    (hw : fs.dirs.contains watch = true)
    (hmap : dbMapList db.docs = m1 ++ doc :: m2)
    (habs : ∀ e ∈ scan_directory env.digest fs watch, e.1 ≠ doc.path)
    (hq : q doc.doc_id = false)
    (hv : doc.doc_id ∈ vstore)
    (hwf : dbWF db)
    (haccMid : accMid = m1.foldl
        (syncDelStep q (scan_directory env.digest fs watch))
        ((scan_directory env.digest fs watch).foldl
          (syncStep env fs q (m1 ++ doc :: m2)) (syncAcc0 db vstore))) :
    syncDelStep q (scan_directory env.digest fs watch) accMid doc =
      { accMid with
          stats := { accMid.stats with deleted := accMid.stats.deleted + 1 }
          pending := accMid.pending ++ [doc.doc_id]
          vstore := accMid.vstore } ∧
    (run_sync env fs q watch db vstore).2.1.docs.filter
        (fun d => d.doc_id == doc.doc_id) = [] ∧
    (run_sync env fs q watch db vstore).2.1.chunks.filter
        (fun c => c.doc_id == doc.doc_id) = [] ∧
    doc.doc_id ∈ (run_sync env fs q watch db vstore).2.2 ∧
    (∃ s, (run_sync env fs q watch db vstore).1 = .ok s ∧
      accMid.stats.deleted + 1 ≤ s.deleted) := by
  have hdocmem : doc ∈ db.docs := by
    refine dbMapList_sub db.docs doc ?_
    rw [hmap]
    exact List.mem_append_right _ (List.mem_cons_self _ _)
  have hdoclt : doc.doc_id < db.nextId := hwf.1 doc hdocmem
  obtain ⟨jb, hrun⟩ := run_sync_components env fs q watch db vstore hw
  have hAccF : syncAccF env fs q watch db vstore =
      m2.foldl (syncDelStep q (scan_directory env.digest fs watch))
        (syncDelStep q (scan_directory env.digest fs watch) accMid doc) := by
    unfold syncAccF
    rw [hmap, List.foldl_append, List.foldl_cons, ← haccMid]
  have hany : (scan_directory env.digest fs watch).any
      (fun e => e.1 = doc.path) = false := by
    rw [List.any_eq_false]
    intro e he
    simp [habs e he]
  have hstepEq : syncDelStep q (scan_directory env.digest fs watch) accMid doc =
      { accMid with
          stats := { accMid.stats with deleted := accMid.stats.deleted + 1 }
          pending := accMid.pending ++ [doc.doc_id]
          vstore := accMid.vstore } := by
    unfold syncDelStep
    simp only [hany]
    simp only [delete_document_data, hq]
    simp
  have hMid : DBExtends db accMid.committed ∧ doc.doc_id ∈ accMid.vstore := by
    subst haccMid
    refine foldl_inv _
      (fun a => DBExtends db a.committed ∧ doc.doc_id ∈ a.vstore) ?_ m1 _
      (foldl_inv _
        (fun a => DBExtends db a.committed ∧ doc.doc_id ∈ a.vstore) ?_ _ _
        ⟨DBExtends_refl db, hv⟩)
    · intro a e h
      exact ⟨DBExtends_trans h.1 (syncDelStep_inv q _ a e).1,
        (syncDelStep_inv q _ a e).2.2.2 _ hq h.2⟩
    · intro a e h
      exact ⟨DBExtends_trans h.1 (syncStep_inv env fs q _ a e).1,
        (syncStep_inv env fs q _ a e).2.2.2 _ hq h.2⟩
  have hJP : DBExtends db
        (syncDelStep q (scan_directory env.digest fs watch) accMid doc).committed ∧
      doc.doc_id ∈
        (syncDelStep q (scan_directory env.digest fs watch) accMid doc).pending ∧
      accMid.stats.deleted + 1 ≤
        (syncDelStep q (scan_directory env.digest fs watch) accMid doc).stats.deleted ∧
      doc.doc_id ∈
        (syncDelStep q (scan_directory env.digest fs watch) accMid doc).vstore := by
    rw [hstepEq]
    exact ⟨hMid.1, by simp, le_rfl, hMid.2⟩
  have hJF : DBExtends db (syncAccF env fs q watch db vstore).committed ∧
      doc.doc_id ∈ (syncAccF env fs q watch db vstore).pending ∧
      accMid.stats.deleted + 1 ≤
        (syncAccF env fs q watch db vstore).stats.deleted ∧
      doc.doc_id ∈ (syncAccF env fs q watch db vstore).vstore := by
    rw [hAccF]
    refine foldl_inv _ (fun a => DBExtends db a.committed ∧
        doc.doc_id ∈ a.pending ∧
        accMid.stats.deleted + 1 ≤ a.stats.deleted ∧
        doc.doc_id ∈ a.vstore) ?_ m2 _ hJP
    intro a e h
    obtain ⟨hI, hII, hIII, hIV⟩ := h
    exact ⟨DBExtends_trans hI (syncDelStep_inv q _ a e).1,
      (syncDelStep_inv q _ a e).2.2.1 _ hII,
      le_trans hIII (syncDelStep_inv q _ a e).2.1.2.2.1,
      (syncDelStep_inv q _ a e).2.2.2 _ hq hIV⟩
  have hcommit := syncCommit_no_doc db (syncAccF env fs q watch db vstore)
    jb doc.doc_id hJF.1 hJF.2.1 hdoclt
  refine ⟨hstepEq, ?_, ?_, ?_, ?_⟩
  · rw [hrun]
    exact hcommit.1
  · rw [hrun]
    exact hcommit.2
  · rw [hrun]
    exact hJF.2.2.2
  · exact ⟨(syncAccF env fs q watch db vstore).stats, by rw [hrun],
      hJF.2.2.1⟩

/-- Watch directory that exists but holds no files any more. -/
def fs10 : FS := ⟨["/w"], [], fun _ _ _ => false⟩

/-- The indexed document whose file vanished from disk. -/
def d10 : Doc :=
  { doc_id := 4, folder_id := none, file_name := "gone.pdf",
    path := "/w/gone.pdf", type := "pdf", hash := "G", size := 1,
    dept_id := 1, role_id := 3, total_page_cnt := 1, status := "indexed",
    error_msg := none }

/-- Catalog holding `d10` and one of its chunk rows. -/
def db10 : DB := ⟨[d10], [⟨4, 0, "c", 1, none, [0], "e5"⟩], [], 5⟩

/-- Witness for C10: with the vector store refusing every delete, the sync
run still removes document 4 and its chunks from the catalog, while the
store keeps its points. -/
theorem claimC10_vector_delete_failure_swallowed_witness :
    (run_sync envT fs10 (fun _ => false) "/w" db10 [4]).2.1.docs.filter
        (fun d => d.doc_id == 4) = [] ∧
    (run_sync envT fs10 (fun _ => false) "/w" db10 [4]).2.1.chunks.filter
        (fun c => c.doc_id == 4) = [] ∧
    4 ∈ (run_sync envT fs10 (fun _ => false) "/w" db10 [4]).2.2 :=
  have h := claimC10_vector_delete_failure_swallowed envT fs10
    (fun _ => false) "/w" db10 [4] [] [] d10 (syncAcc0 db10 [4]) (by decide)
    rfl (by decide) rfl (by decide) (by unfold dbWF; decide) rfl
  ⟨h.2.1, h.2.2.1, h.2.2.2.1⟩

end LlmPdfQa
